import Mathlib

set_option autoImplicit false

namespace Fetch

/-!
Shallow embedding of the request-normalization and response-materialization
layer of `src/index.js` (a minimal Promise-based HTTP client).  JavaScript
objects are modelled as association lists of string keys (enumerable
properties in insertion order); the handful of runtime value shapes the code
inspects (`typeof x === 'function'`, `x == null`, `instanceof Headers`,
`instanceof ReadableStream`, `typeof x === 'boolean'`) are the constructors
of `JSVal`.
-/

/-- JavaScript runtime values at the granularity `index.js` inspects them:
strings, numbers, booleans, `null`, `undefined`, opaque function values,
plain header mappings, `Headers` instances (carrying their entry list),
non-`Headers` objects that nonetheless expose an `.entries()` iteration
(e.g. a `Map` or a foreign `Headers` implementation, carrying their entry
list), and `ReadableStream` bodies (carrying their chunk list). -/
inductive JSVal where
  | vstr (s : String)
  | vnum (n : Int)
  | vbool (b : Bool)
  | vnull
  | vUndefined
  | vfun (tag : String)
  | plainObj (pairs : List (String × String))
  | headersInst (pairs : List (String × String))
  | entriesObj (pairs : List (String × String))
  | streamInst (chunks : List String)
  deriving DecidableEq

/-- A JavaScript object: its enumerable properties in insertion order. -/
abbrev Config := List (String × JSVal)

/-- First-occurrence lookup, the semantics of property access on an object
whose keys are unique. -/
def lookupFirst {α : Type} : List (String × α) → String → Option α
  | [], _ => none
  | (k0, v) :: rest, k => if k0 = k then some v else lookupFirst rest k

/-- Property write `o[k] = v`: overwrite the existing entry in place
(keeping its position, as JavaScript does), else append a new entry. -/
def setProp {α : Type} : List (String × α) → String → α → List (String × α)
  | [], k, v => [(k, v)]
  | (k0, v0) :: rest, k, v =>
    if k0 = k then (k, v) :: rest else (k0, v0) :: setProp rest k v

/-- Property deletion `delete o[k]`. -/
def delProp {α : Type} : List (String × α) → String → List (String × α)
  | [], _ => []
  | (k0, v0) :: rest, k =>
    if k0 = k then delProp rest k else (k0, v0) :: delProp rest k

/-- Property read `o[k]`: `undefined` when the key is absent. -/
def getProp (o : Config) (k : String) : JSVal :=
  (lookupFirst o k).getD .vUndefined

/-- `typeof v === 'function'`. -/
def isFunctionVal : JSVal → Bool
  | .vfun _ => true
  | _ => false

/-- Loose equality `v == null`, true exactly for `null` and `undefined`. -/
def isLooseNull : JSVal → Bool
  | .vnull => true
  | .vUndefined => true
  | _ => false

/-- JavaScript truthiness of a value (used for `!silent` and `if (onData)`). -/
def jsTruthy : JSVal → Bool
  | .vstr s => !(s == "")
  | .vnum n => !(n == 0)
  | .vbool b => b
  | .vnull => false
  | .vUndefined => false
  | .vfun _ => true
  | .plainObj _ => true
  | .headersInst _ => true
  | .entriesObj _ => true
  | .streamInst _ => true

/-- The module-level default configuration object of `index.js` (lines
31-42).  The source literal lists `agent: null` twice; in JavaScript the
second write overwrites the first, so the object has nine keys. -/
def httpConfig : Config :=
  [("headers", .plainObj []), ("timeout", .vnum 5000), ("agent", .vnull),
   ("auth", .vnull), ("body", .vnull), ("method", .vstr "GET"),
   ("onData", .vnull), ("silent", .vbool false), ("signal", .vnull)]

/-- The `FetchError` class (lines 44-50): message, status, statusText. -/
structure FetchError where
  message : String
  status : Int
  statusText : String
  deriving DecidableEq

/-- `copyProperties(target, source)` (lines 52-57): a `for...in` loop that
skips function-typed and `== null` values and writes every other property
onto the target. -/
def copyProperties (target : Config) : Config → Config
  | [] => target
  | (k, v) :: rest =>
    copyProperties
      (if isFunctionVal v || isLooseNull v then target else setProp target k v)
      rest

/-- The accumulator loop of `ReadStream` (lines 59-71) and of the response
`data` buffer: repeated `result += chunk` from left to right. -/
def appendAll (acc : String) : List String → String
  | [] => acc
  | c :: cs => appendAll (acc ++ c) cs

/-- `ReadStream(stream)` (lines 59-71): drain a readable stream to the
concatenation of its chunks. -/
def ReadStream (chunks : List String) : String := appendAll "" chunks

/-- A parsed absolute URL: the fields of the WHATWG `URL` platform object
that `_fetch` reads (`protocol`, `hostname`, `port`, `pathname`, `search`,
`hash`).  `protocol` includes the trailing colon, `search` the leading `?`,
`hash` the leading `#`; each of `search`, `hash`, `port` is the empty string
when absent. -/
structure URLRec where
  protocol : String
  hostname : String
  port : String
  pathname : String
  search : String
  hash : String
  deriving DecidableEq

/-- Model of the platform `new URL(...)` parser (an external collaborator,
not repository code), restricted to the simple
`scheme://host[:port][/path][?query][#fragment]` shapes the claims
exercise: the fragment starts at the first `#` of the path part, the query
at the first `?` before it, and an empty path reads back as `/`. -/
def parseURL (s : String) : Option URLRec :=
  let cs := s.data
  let scheme := cs.takeWhile (fun c => c ≠ ':')
  match cs.dropWhile (fun c => c ≠ ':') with
  | ':' :: '/' :: '/' :: rest =>
    if scheme.isEmpty then none else
    let hostport := rest.takeWhile (fun c => c ≠ '/')
    let pathrest := rest.dropWhile (fun c => c ≠ '/')
    let beforeHash := pathrest.takeWhile (fun c => c ≠ '#')
    let hashPart := pathrest.dropWhile (fun c => c ≠ '#')
    let pathPart := beforeHash.takeWhile (fun c => c ≠ '?')
    let searchPart := beforeHash.dropWhile (fun c => c ≠ '?')
    let host := hostport.takeWhile (fun c => c ≠ ':')
    let portPart := match hostport.dropWhile (fun c => c ≠ ':') with
      | ':' :: p => p
      | _ => []
    if host.isEmpty then none else
    some { protocol := String.mk scheme ++ ":",
           hostname := String.mk host,
           port := String.mk portPart,
           pathname := if pathPart.isEmpty then "/" else String.mk pathPart,
           search := String.mk searchPart,
           hash := String.mk hashPart }
  | _ => none

/-- The two transport modules of the source: `http` (plain) and `https`
(TLS-capable). -/
inductive Transport where
  | http
  | https
  deriving DecidableEq

/-- The shapes the first argument of `_fetch` is tested against, in the
order of the source branches: `url instanceof Request` (carrying its `.url`
string and its enumerable properties), `typeof url === "string"`,
`url instanceof URL`, and anything else (`other` carries a description of
the rejected value, e.g. a number). -/
inductive FetchInput where
  | request (url : String) (props : Config)
  | str (s : String)
  | urlObj (u : URLRec)
  | other (desc : String)

/-- In the string branch (line 90) the source evaluates `url.protocol`
where `url` is the raw string: property access on a JavaScript string has
no `protocol` field and yields `undefined`, whatever the string is. -/
def stringProtocolProp : JSVal := JSVal.vUndefined

/-- Transport selection of the input branches (lines 84-96): a Request uses
`url.url.startsWith('https')`; a string compares `url.protocol` (which is
`undefined` on a string, see `stringProtocolProp`) with `'https:'`; a URL
object compares its `protocol` field; any other input is rejected with
`FetchError("Invalid URL", 400, "Bad Request")`. -/
def selectTransport : FetchInput → Except FetchError Transport
  | .request u _ => .ok (if u.startsWith "https" then .https else .http)
  | .str _ => .ok (if stringProtocolProp == .vstr "https:" then .https else .http)
  | .urlObj u => .ok (if u.protocol == "https:" then .https else .http)
  | .other _ => .error ⟨"Invalid URL", 400, "Bad Request"⟩

/-- The `_url` each branch resolves (lines 84-93): Requests and strings are
parsed with `new URL(...)`, URL objects are used directly, other inputs
leave `_url` undefined. -/
def resolveURL : FetchInput → Option URLRec
  | .request u _ => parseURL u
  | .str s => parseURL s
  | .urlObj u => some u
  | .other _ => none

/-- `Object.fromEntries` accumulator: each entry is written in order, later
entries overwriting earlier ones. -/
def objFromEntries : List (String × String) → List (String × String) → List (String × String)
  | acc, [] => acc
  | acc, (k, v) :: rest => objFromEntries (setProp acc k v) rest

/-- `Object.fromEntries(headers.entries())` (line 99). -/
def fromEntries (l : List (String × String)) : List (String × String) :=
  objFromEntries [] l

/-- Line 98-100: a `Headers` instance in `config.headers` is replaced by
the plain mapping of its entries.  The source tests
`config.headers instanceof Headers`, so only an actual `Headers` instance
(`headersInst`) is converted; a non-`Headers` object that merely exposes
`.entries()` (`entriesObj`) falls through unconverted, like every other
value. -/
def normalizeHeaders (c : Config) : Config :=
  match getProp c "headers" with
  | .headersInst ps => setProp c "headers" (.plainObj (fromEntries ps))
  | _ => c

/-- Line 106: a `ReadableStream` body is replaced by its drained string. -/
def drainBody (c : Config) : Config :=
  match getProp c "body" with
  | .streamInst chunks => setProp c "body" (.vstr (ReadStream chunks))
  | _ => c

/-- Line 108: a boolean `bodyUsed` field is deleted from the config. -/
def stripBodyUsed (c : Config) : Config :=
  match getProp c "bodyUsed" with
  | .vbool _ => delProp c "bodyUsed"
  | _ => c

/-- The Request branch merge (line 86): `copyProperties(config, url)`
writes the Request-like input's properties onto the config; other inputs
leave the config alone. -/
def mergeInput (c : Config) : FetchInput → Config
  | .request _ props => copyProperties c props
  | _ => c

/-- The in-place config mutations `_fetch` performs before issuing the
request, in source order: the Request-property merge (line 86), the
`Headers` conversion (lines 98-100), the stream-body drain (line 106) and
the `bodyUsed` strip (line 108).  The returned list is the final state of
the very object that was passed in (the source mutates it in place). -/
def configPhase (c : Config) (input : FetchInput) : Config :=
  stripBodyUsed (drainBody (normalizeHeaders (mergeInput c input)))

/-- One `_fetch` call's effect on configuration state, with the module
object `httpConfig` threaded explicitly.  `_fetch(url, config = httpConfig)`
binds the shared module default itself when the second argument is omitted
(`cfg = none`), so every in-place mutation of `configPhase` then lands on
the module object and persists for later calls; an explicitly passed config
(`cfg = some c`) is mutated instead and the module object is untouched.
Returns (resolved config after the phase, module default after the call). -/
def fetchConfigStep (modCfg : Config) (input : FetchInput) (cfg : Option Config) :
    Config × Config :=
  match cfg with
  | some c => (configPhase c input, modCfg)
  | none =>
    let r := configPhase modCfg input
    (r, r)

/-- The object a per-verb helper builds (lines 156-214):
`{ ...config, method: VERB }` — a fresh object holding exactly the caller's
enumerable properties (when a config was given) with `method` forced. -/
def mkVerbConfig (cfg : Option Config) (method : String) : Config :=
  setProp (cfg.getD []) "method" (.vstr method)

/-- A call through a per-verb helper: it always hands `_fetch` the fresh
`{ ...config, method: VERB }` object, so `_fetch`'s default parameter (the
shared `httpConfig`) is never used on this path. -/
def verbCall (modCfg : Config) (input : FetchInput) (cfg : Option Config)
    (method : String) : Config × Config :=
  fetchConfigStep modCfg input (some (mkVerbConfig cfg method))

/-- Path assembly (lines 102-104): start from `pathname`, append `search`
if truthy (non-empty), then `hash` if truthy. -/
def buildPath (u : URLRec) : String :=
  let p := u.pathname
  let p1 := if u.search == "" then p else p ++ u.search
  if u.hash == "" then p1 else p1 ++ u.hash

/-- Rest-destructuring `const { silent, onData, ..._config } = config`
(line 110): every property except the named ones, order preserved. -/
def omitKeys (c : Config) (ks : List String) : Config :=
  c.filter (fun p => !(ks.contains p.1))

/-- Object-spread accumulator: copy every entry (no filtering), later
entries overwriting earlier ones. -/
def spreadInto (t : Config) : Config → Config
  | [] => t
  | (k, v) :: rest => spreadInto (setProp t k v) rest

/-- The options object handed to `protocol.request` (lines 112-117):
`{ hostname, port, path, ..._config }` where `_config` is the resolved
config without `silent` and `onData`. -/
def requestOptions (u : URLRec) (c : Config) : Config :=
  spreadInto
    [("hostname", .vstr u.hostname), ("port", .vstr u.port),
     ("path", .vstr (buildPath u))]
    (omitKeys c ["silent", "onData"])

/-- A settlement of the call's Promise. -/
inductive Settle where
  | rejected (e : FetchError)
  | resolved (statusCode : Int) (statusMessage : String) (text : String)
  deriving DecidableEq

/-- Observable state of one in-flight call: the Promise settlement (a
Promise settles at most once; the first settlement wins), whether
`req.destroy()` has been called, the accumulated `data` buffer, and the
chunks handed to `onData` in order. -/
structure CallState where
  settled : Option Settle
  destroyed : Bool
  dataBuf : String
  onDataCalls : List String
  deriving DecidableEq

/-- State before any event. -/
def initState : CallState := ⟨none, false, "", []⟩

/-- Settle the Promise: a no-op when it is already settled. -/
def settleWith (st : CallState) (s : Settle) : CallState :=
  if st.settled.isSome then st else { st with settled := some s }

/-- The transport events the source installs handlers for: a body chunk
(line 120), end of body with the response status (line 125), a transport
error (line 137), and the timeout (line 141). -/
inductive Ev where
  | chunk (s : String)
  | endEv (statusCode : Int) (statusMessage : String)
  | errorEv (message : String) (code : Int)
  | timeoutEv
  deriving DecidableEq

/-- One event handled as by the source's handlers (lines 118-144).  A
destroyed request delivers no further events (the transport contract relied
on by `req.destroy()`).  On `end`, the source first rejects when
`res.statusCode >= 400 && !silent` and then unconditionally resolves with
the decorated response, whose `text()` returns the `data` buffer; the
first settlement wins.  On `timeout`, the source calls `req.destroy()` and
then rejects with `FetchError("Request timed out", 408, "Request Timeout")`. -/
def step (silent onData : JSVal) (st : CallState) (ev : Ev) : CallState :=
  if st.destroyed then st
  else
    match ev with
    | .chunk s =>
      { st with
        dataBuf := st.dataBuf ++ s,
        onDataCalls :=
          if jsTruthy onData then st.onDataCalls ++ [s] else st.onDataCalls }
    | .endEv code msg =>
      let st1 :=
        if 400 ≤ code ∧ jsTruthy silent = false then
          settleWith st
            (.rejected ⟨s!"Request failed with status code {code}", code, msg⟩)
        else st
      settleWith st1 (.resolved code msg st1.dataBuf)
    | .errorEv m c => settleWith st (.rejected ⟨m, c, m⟩)
    | .timeoutEv =>
      settleWith { st with destroyed := true }
        (.rejected ⟨"Request timed out", 408, "Request Timeout"⟩)

/-- Process a list of events in order. -/
def runEvents (silent onData : JSVal) (st : CallState) : List Ev → CallState
  | [] => st
  | e :: rest => runEvents silent onData (step silent onData st e) rest

/-- What the Promise executor does over time: attempts to settle, or
crashes (an exception thrown inside the `async` executor after — or
instead of — a settlement never settles the outer Promise; the async
function's own rejection is discarded by the Promise constructor). -/
inductive ExecEvent where
  | settleAttempt (s : Settle)
  | crash (msg : String)

/-- The outcome of the call's Promise: the first settlement attempt;
crashes settle nothing. -/
def promiseOutcome : List ExecEvent → Option Settle
  | [] => none
  | .settleAttempt s :: _ => some s
  | .crash _ :: rest => promiseOutcome rest

/-- The settlement attempts of the input-branch phase (lines 84-104): a
recognized input attempts nothing here; an unrecognized input is rejected
with the 400 `FetchError` (line 95), after which the source keeps running
and crashes reading `_url.pathname` off the undefined `_url` (line 102) —
a crash the async executor swallows. -/
def branchSettleEvents (i : FetchInput) : List ExecEvent :=
  match selectTransport i with
  | .error e =>
    [.settleAttempt (.rejected e),
     .crash "TypeError: cannot read properties of undefined"]
  | .ok _ => []

theorem lookupFirst_setProp {α : Type} (o : List (String × α)) (k q : String) (v : α) :
    lookupFirst (setProp o k v) q = if k = q then some v else lookupFirst o q := by
  induction o with
  | nil => simp [setProp, lookupFirst]
  | cons p rest ih =>
    obtain ⟨k0, v0⟩ := p
    simp only [setProp]
    by_cases h0 : k0 = k
    · subst h0
      by_cases hq : k0 = q <;> simp [lookupFirst, hq]
    · rw [if_neg h0]
      by_cases hq : k0 = q
      · subst hq
        have hkq : ¬(k = k0) := fun hh => h0 hh.symm
        simp [lookupFirst, hkq]
      · simp [lookupFirst, hq, ih]

theorem getProp_setProp (o : Config) (k q : String) (v : JSVal) :
    getProp (setProp o k v) q = if k = q then v else getProp o q := by
  unfold getProp
  rw [lookupFirst_setProp]
  by_cases h : k = q <;> simp [h]

theorem lookupFirst_delProp {α : Type} (o : List (String × α)) (k q : String) :
    lookupFirst (delProp o k) q = if k = q then none else lookupFirst o q := by
  induction o with
  | nil => simp [delProp, lookupFirst]
  | cons p rest ih =>
    obtain ⟨k0, v0⟩ := p
    simp only [delProp]
    by_cases h0 : k0 = k
    · subst h0
      rw [if_pos rfl, ih]
      by_cases hq : k0 = q
      · subst hq; simp [lookupFirst]
      · simp [lookupFirst, hq]
    · rw [if_neg h0]
      by_cases hq : k0 = q
      · subst hq
        have hkq : ¬(k = k0) := fun hh => h0 hh.symm
        simp [lookupFirst, hkq]
      · simp [lookupFirst, hq, ih]

theorem lookupFirst_eq_none {α : Type} {l : List (String × α)} {k : String}
    (h : k ∉ l.map Prod.fst) : lookupFirst l k = none := by
  induction l with
  | nil => rfl
  | cons p rest ih =>
    obtain ⟨k0, v0⟩ := p
    simp only [List.map_cons, List.mem_cons] at h
    push_neg at h
    have : ¬(k0 = k) := fun hh => h.1 hh.symm
    simp [lookupFirst, this, ih h.2]

theorem getProp_copyProperties (s : Config) :
    ∀ t : Config, (s.map Prod.fst).Nodup → ∀ k : String,
      getProp (copyProperties t s) k =
        match lookupFirst s k with
        | some v => if isFunctionVal v || isLooseNull v then getProp t k else v
        | none => getProp t k := by
  induction s with
  | nil => intro t _ k; rfl
  | cons p rest ih =>
    intro t hnd k
    obtain ⟨k0, v0⟩ := p
    rw [List.map_cons, List.nodup_cons] at hnd
    obtain ⟨hk0, hrest⟩ := hnd
    show getProp (copyProperties (if isFunctionVal v0 || isLooseNull v0 then t
        else setProp t k0 v0) rest) k = _
    rw [ih _ hrest k]
    by_cases hq : k0 = k
    · subst hq
      rw [lookupFirst_eq_none hk0]
      show getProp (if isFunctionVal v0 || isLooseNull v0 then t else setProp t k0 v0) k0 =
        match lookupFirst ((k0, v0) :: rest) k0 with
        | some v => if isFunctionVal v || isLooseNull v then getProp t k0 else v
        | none => getProp t k0
      by_cases hskip : (isFunctionVal v0 || isLooseNull v0) = true
      · simp [lookupFirst, hskip]
      · simp [lookupFirst, hskip, getProp_setProp]
    · have hmatch : lookupFirst ((k0, v0) :: rest) k = lookupFirst rest k := by
        simp [lookupFirst, hq]
      rw [hmatch]
      by_cases hskip : (isFunctionVal v0 || isLooseNull v0) = true
      · simp [hskip]
      · simp only [hskip, if_false, Bool.false_eq_true]
        have : getProp (setProp t k0 v0) k = getProp t k := by
          rw [getProp_setProp, if_neg hq]
        cases lookupFirst rest k <;> simp [this]

theorem setProp_append {α : Type} (o : List (String × α)) (k : String) (v : α)
    (h : k ∉ o.map Prod.fst) : setProp o k v = o ++ [(k, v)] := by
  induction o with
  | nil => rfl
  | cons p rest ih =>
    obtain ⟨k0, v0⟩ := p
    simp only [List.map_cons, List.mem_cons] at h
    push_neg at h
    have : ¬(k0 = k) := fun hh => h.1 hh.symm
    simp [setProp, this, ih h.2]

theorem objFromEntries_eq :
    ∀ (l acc : List (String × String)),
      (acc.map Prod.fst ++ l.map Prod.fst).Nodup → objFromEntries acc l = acc ++ l := by
  intro l
  induction l with
  | nil => intro acc _; simp [objFromEntries]
  | cons p rest ih =>
    intro acc h
    obtain ⟨k, v⟩ := p
    have hk : k ∉ acc.map Prod.fst := by
      rcases List.nodup_append.mp h with ⟨_, _, hdisj⟩
      intro hm
      exact hdisj hm (by simp)
    show objFromEntries (setProp acc k v) rest = acc ++ (k, v) :: rest
    rw [setProp_append acc k v hk]
    rw [ih (acc ++ [(k, v)]) (by simpa [List.append_assoc] using h)]
    simp

theorem fromEntries_of_nodup {l : List (String × String)}
    (hnd : (l.map Prod.fst).Nodup) : fromEntries l = l := by
  have := objFromEntries_eq l [] (by simpa using hnd)
  simpa [fromEntries] using this

theorem normalizeHeaders_of_headersInst (c : Config) (ps : List (String × String))
    (hh : getProp c "headers" = .headersInst ps) :
    normalizeHeaders c = setProp c "headers" (.plainObj (fromEntries ps)) := by
  unfold normalizeHeaders
  rw [hh]

theorem getProp_drainBody_ne (c : Config) (q : String) (hq : q ≠ "body") :
    getProp (drainBody c) q = getProp c q := by
  have hne : ¬("body" = q) := fun hh => hq hh.symm
  unfold drainBody
  cases hb : getProp c "body" <;> simp [getProp_setProp, hne]

theorem getProp_stripBodyUsed_ne (c : Config) (q : String) (hq : q ≠ "bodyUsed") :
    getProp (stripBodyUsed c) q = getProp c q := by
  have hne : ¬("bodyUsed" = q) := fun hh => hq hh.symm
  unfold stripBodyUsed
  cases hb : getProp c "bodyUsed" <;> simp [getProp, lookupFirst_delProp, hne]

theorem step_destroyed (silent onData : JSVal) (st : CallState) (e : Ev)
    (h : st.destroyed = true) : step silent onData st e = st := by
  simp [step, h]

theorem runEvents_destroyed (silent onData : JSVal) (st : CallState) (evs : List Ev)
    (h : st.destroyed = true) : runEvents silent onData st evs = st := by
  induction evs with
  | nil => rfl
  | cons e rest ih =>
    show runEvents silent onData (step silent onData st e) rest = st
    rw [step_destroyed silent onData st e h, ih]

theorem runEvents_chunks (silent onData : JSVal) (chunks : List String) :
    ∀ st : CallState, st.settled = none → st.destroyed = false →
      (runEvents silent onData st (chunks.map .chunk)).settled = none ∧
      (runEvents silent onData st (chunks.map .chunk)).destroyed = false ∧
      (runEvents silent onData st (chunks.map .chunk)).dataBuf = appendAll st.dataBuf chunks := by
  induction chunks with
  | nil => intro st h1 h2; exact ⟨h1, h2, rfl⟩
  | cons c cs ih =>
    intro st h1 h2
    simp only [List.map_cons, runEvents]
    have h1' : (step silent onData st (.chunk c)).settled = none := by
      simp [step, h2, h1]
    have h2' : (step silent onData st (.chunk c)).destroyed = false := by
      simp [step, h2]
    have h3' : (step silent onData st (.chunk c)).dataBuf = st.dataBuf ++ c := by
      simp [step, h2]
    obtain ⟨a, b, d⟩ := ih (step silent onData st (.chunk c)) h1' h2'
    refine ⟨a, b, ?_⟩
    rw [d, h3']
    rfl

/-- Claim C2: for every completed response, the Promise rejects because of
the HTTP status if and only if the status code is at least 400 and `silent`
is falsy; the rejection value is a `FetchError` whose `status` equals the
response status code and whose `statusText` equals the response status
message; in every other case the Promise resolves with the response, whose
`text()` returns the received body (the chunks accumulated in arrival
order). -/
theorem status_classification (silent onData : JSVal) (chunks : List String)
    (code : Int) (msg : String) :
    (step silent onData (runEvents silent onData initState (chunks.map .chunk))
        (.endEv code msg)).settled =
      some (if 400 ≤ code ∧ jsTruthy silent = false then
              .rejected ⟨s!"Request failed with status code {code}", code, msg⟩
            else .resolved code msg (appendAll "" chunks)) := by
  obtain ⟨h1, h2, h3⟩ := runEvents_chunks silent onData chunks initState rfl rfl
  rw [show initState.dataBuf = "" from rfl] at h3
  by_cases hc : 400 ≤ code ∧ jsTruthy silent = false
  · simp [step, h1, h2, hc, settleWith]
  · simp [step, h1, h2, h3, hc, settleWith]

/-- Claim C5: from any state in which no completion or error has settled
the call and the request is still alive, the timeout event destroys the
in-flight request and rejects the Promise with
`FetchError("Request timed out", 408, "Request Timeout")`; no event
processed afterwards changes the observable state. -/
theorem timeout_teardown (silent onData : JSVal) (st : CallState) (evs : List Ev)
    (h1 : st.settled = none) (h2 : st.destroyed = false) :
    (step silent onData st .timeoutEv).settled =
        some (.rejected ⟨"Request timed out", 408, "Request Timeout"⟩) ∧
    (step silent onData st .timeoutEv).destroyed = true ∧
    runEvents silent onData (step silent onData st .timeoutEv) evs =
      step silent onData st .timeoutEv := by
  have hs : step silent onData st .timeoutEv =
      { st with destroyed := true,
                settled := some (.rejected ⟨"Request timed out", 408, "Request Timeout"⟩) } := by
    simp [step, h2, settleWith, h1]
  refine ⟨by rw [hs], by rw [hs], runEvents_destroyed _ _ _ evs (by rw [hs])⟩

/-- Claim C1 (code bug): for a string input the source compares
`url.protocol` — read off the raw string, hence `undefined` — with
`'https:'`, so every string input selects the plain `http` transport, even
`"https://example.com/"`, whose parsed scheme is `https:`.  This
contradicts the documented scheme-based selection (and the repository
README, whose examples fetch `https://` string URLs). -/
theorem string_input_always_plain_transport :
    selectTransport (.str "https://example.com/") = .ok .http
    ∧ (parseURL "https://example.com/").map URLRec.protocol = some "https:"
    ∧ ∀ s : String, selectTransport (.str s) = .ok .http :=
  ⟨rfl, by decide, fun _ => rfl⟩

/-- Counterexample to claim C3: a `_fetch` call that omits its config and
passes a Request-like input mutates the shared module default `httpConfig`
in place (here: `method` becomes `"POST"`), and a later call that also
omits its config observes the mutated default instead of `method = "GET"`. -/
theorem shared_default_leaks_across_calls :
    (let call1 := fetchConfigStep httpConfig
        (.request "http://a.example/" [("method", JSVal.vstr "POST")]) none
     let call2 := fetchConfigStep call1.2 (.str "http://b.example/") none
     getProp call2.1 "method" = JSVal.vstr "POST")
    ∧ getProp (fetchConfigStep httpConfig (.str "http://b.example/") none).1 "method"
        = JSVal.vstr "GET" := by
  constructor <;> decide

/-- Claim C3 as amended: a call that is handed its own config object never
touches the shared module default, and every per-verb helper call builds a
fresh `{ ...config, method }` object, so only direct `fetch` calls that
omit the config argument share (and mutate) the module default. -/
theorem explicit_config_isolates_module_state (modCfg : Config) (input : FetchInput)
    (c : Config) (cfg : Option Config) (m : String) :
    (fetchConfigStep modCfg input (some c)).2 = modCfg
    ∧ (verbCall modCfg input cfg m).2 = modCfg :=
  ⟨rfl, rfl⟩

/-- Counterexample to claim C4: a `get` call with an explicit config
resolves `timeout` to `undefined` — the documented default 5000 is never
merged in, because the verb helper passes the fresh object
`{ ...config, method: 'GET' }` and `_fetch`'s default parameter only
applies when the config argument is absent altogether. -/
theorem verb_call_lacks_documented_defaults :
    getProp ((verbCall httpConfig (.str "http://example.com/")
        (some [("silent", JSVal.vbool true)]) "GET").1) "timeout" = JSVal.vUndefined
    ∧ lookupFirst (mkVerbConfig (some [("silent", JSVal.vbool true)]) "GET") "timeout"
        = none := by
  constructor <;> decide

/-- Claim C4 as amended: the documented defaults (headers `{}`, timeout
5000, agent/auth/body/signal/onData `null`, method `"GET"`, silent
`false`) are the fields of the shared `httpConfig` object and take effect
exactly when `_fetch` is called with its config argument omitted; a
per-verb helper always forces `method` and otherwise hands `_fetch` exactly
the caller's fields, with no baseline merged underneath. -/
theorem defaults_only_when_config_omitted :
    (fetchConfigStep httpConfig (.str "http://example.com/") none).1 = httpConfig
    ∧ getProp httpConfig "headers" = JSVal.plainObj []
    ∧ getProp httpConfig "timeout" = JSVal.vnum 5000
    ∧ getProp httpConfig "agent" = JSVal.vnull
    ∧ getProp httpConfig "auth" = JSVal.vnull
    ∧ getProp httpConfig "body" = JSVal.vnull
    ∧ getProp httpConfig "method" = JSVal.vstr "GET"
    ∧ getProp httpConfig "onData" = JSVal.vnull
    ∧ getProp httpConfig "silent" = JSVal.vbool false
    ∧ getProp httpConfig "signal" = JSVal.vnull
    ∧ (∀ (cfg : Option Config) (m : String),
        getProp (mkVerbConfig cfg m) "method" = JSVal.vstr m)
    ∧ (∀ (c : Config) (k : String),
        lookupFirst (mkVerbConfig (some c) "GET") k =
          if k = "method" then some (JSVal.vstr "GET") else lookupFirst c k) := by
  refine ⟨by decide, by decide, by decide, by decide, by decide, by decide, by decide,
    by decide, by decide, by decide, ?_, ?_⟩
  · intro cfg m
    unfold mkVerbConfig getProp
    rw [lookupFirst_setProp]
    simp
  · intro c k
    unfold mkVerbConfig
    rw [Option.getD_some, lookupFirst_setProp]
    by_cases hk : k = "method"
    · subst hk; simp
    · have : ¬("method" = k) := fun hh => hk hh.symm
      simp [this, hk]

/-- Claim C6: the path handed to the transport is
`pathname + search + hash` in that order for every parsed URL, and the
scenario `get("http://example.com/search?q=1#frag")` with no override
issues a request whose options carry path `"/search?q=1#frag"`, method
`"GET"` and hostname `"example.com"`. -/
theorem transport_path_concatenation :
    (∀ u : URLRec, buildPath u = u.pathname ++ u.search ++ u.hash)
    ∧ parseURL "http://example.com/search?q=1#frag" =
        some ⟨"http:", "example.com", "", "/search", "?q=1", "#frag"⟩
    ∧ (let cfg := configPhase (mkVerbConfig none "GET")
          (.str "http://example.com/search?q=1#frag")
       let opts := requestOptions ⟨"http:", "example.com", "", "/search", "?q=1", "#frag"⟩ cfg
       lookupFirst opts "path" = some (JSVal.vstr "/search?q=1#frag")
       ∧ lookupFirst opts "method" = some (JSVal.vstr "GET")
       ∧ lookupFirst opts "hostname" = some (JSVal.vstr "example.com")) := by
  refine ⟨?_, by decide, by decide⟩
  intro u
  unfold buildPath
  by_cases hs : u.search = "" <;> by_cases hh : u.hash = "" <;>
    simp [hs, hh, String.append_empty]

/-- Claim C7: an input that is neither a string, a URL object nor a
Request-like object makes the call reject with
`FetchError("Invalid URL", 400, "Bad Request")`: the executor attempts that
rejection first, and its subsequent crash on the undefined `_url` is
swallowed by the async executor, so the first settlement wins. -/
theorem invalid_input_rejects_400 (d : String) :
    promiseOutcome (branchSettleEvents (.other d)) =
      some (.rejected ⟨"Invalid URL", 400, "Bad Request"⟩) := rfl

/-- Claim C8: merging a Request-like source onto a config copies exactly
those properties whose values are neither function-typed nor
`null`/`undefined`, each copied value overwriting the config's previous
value for that key; skipped properties leave the config's value unchanged. -/
theorem request_properties_merge (t s : Config)
    (hnd : (s.map Prod.fst).Nodup) (k : String) :
    getProp (copyProperties t s) k =
      match lookupFirst s k with
      | some v => if isFunctionVal v || isLooseNull v then getProp t k else v
      | none => getProp t k :=
  getProp_copyProperties s t hnd k

/-- Witness for C8 at a concrete merge: a `POST` method overwrites the
config's `GET`, while a function-valued `onData` and a `null` `auth` are
skipped. -/
theorem request_properties_merge_witness :
    getProp (copyProperties [("method", JSVal.vstr "GET"), ("auth", JSVal.vstr "u:p")]
        [("method", JSVal.vstr "POST"), ("onData", JSVal.vfun "cb"),
         ("auth", JSVal.vnull)]) "method" = JSVal.vstr "POST" := by
  have h := request_properties_merge
      [("method", JSVal.vstr "GET"), ("auth", JSVal.vstr "u:p")]
      [("method", JSVal.vstr "POST"), ("onData", JSVal.vfun "cb"), ("auth", JSVal.vnull)]
      (by decide) "method"
  rw [h]
  decide

/-- Counterexample to claim C9: the claim covers `headers` carrying any
object that exposes an `.entries()` iteration, but the source converts only
actual `Headers` instances (`instanceof Headers`, line 98).  A non-`Headers`
object exposing `.entries()` over the single pair `("x-a", "1")` survives
the whole config phase unconverted: the resolved `headers` is still that
object, not the plain mapping with the same key/value pairs. -/
theorem entries_object_headers_not_converted :
    getProp (configPhase [("headers", JSVal.entriesObj [("x-a", "1")])]
        (.str "http://example.com/")) "headers"
      = JSVal.entriesObj [("x-a", "1")]
    ∧ getProp (configPhase [("headers", JSVal.entriesObj [("x-a", "1")])]
        (.str "http://example.com/")) "headers"
      ≠ JSVal.plainObj [("x-a", "1")] := by
  constructor <;> decide

/-- Claim C9 as amended: when the resolved config (after any
Request-property merge) carries an actual `Headers` instance in `headers` —
the source tests `instanceof Headers`, not mere exposure of `.entries()` —
the config phase converts it, before the request is issued, to a plain
mapping with exactly the same key/value pairs. -/
theorem headers_converted_to_plain_mapping (c : Config) (input : FetchInput)
    (ps : List (String × String))
    (hh : getProp (mergeInput c input) "headers" = JSVal.headersInst ps)
    (hnd : (ps.map Prod.fst).Nodup) :
    getProp (configPhase c input) "headers" = JSVal.plainObj ps := by
  unfold configPhase
  rw [getProp_stripBodyUsed_ne _ _ (by decide), getProp_drainBody_ne _ _ (by decide)]
  rw [normalizeHeaders_of_headersInst _ ps hh, getProp_setProp]
  rw [fromEntries_of_nodup hnd]
  simp

/-- Witness for C9 at a concrete two-entry `Headers` instance. -/
theorem headers_converted_witness :
    getProp (configPhase [("headers", JSVal.headersInst [("content-type", "application/json"), ("x-a", "1")])]
        (.str "http://example.com/")) "headers"
      = JSVal.plainObj [("content-type", "application/json"), ("x-a", "1")] :=
  headers_converted_to_plain_mapping
    [("headers", JSVal.headersInst [("content-type", "application/json"), ("x-a", "1")])]
    (.str "http://example.com/")
    [("content-type", "application/json"), ("x-a", "1")]
    (by decide) (by decide)

/-- Claim C10: a call with a Request-like input mutates the caller's
config object in place — the Request's non-function, non-null properties
are written into it, a `Headers` value in `headers` is replaced by a plain
mapping, a stream body is replaced by its drained string, and a boolean
`bodyUsed` is deleted — so the same object handed to a later call still
carries the modifications (here: the later call issues `PUT`). -/
theorem request_input_mutates_caller_config :
    (let c0 : Config := [("headers", JSVal.headersInst [("x-a", "1")]),
                         ("body", JSVal.streamInst ["he", "llo"]),
                         ("timeout", JSVal.vnum 1000)]
     let req : FetchInput := .request "http://example.com/"
        [("method", JSVal.vstr "PUT"), ("bodyUsed", JSVal.vbool true),
         ("onData", JSVal.vfun "cb"), ("agent", JSVal.vnull)]
     let c1 := configPhase c0 req
     getProp c1 "method" = JSVal.vstr "PUT"
     ∧ getProp c1 "headers" = JSVal.plainObj [("x-a", "1")]
     ∧ getProp c1 "body" = JSVal.vstr "hello"
     ∧ lookupFirst c1 "bodyUsed" = none
     ∧ getProp c1 "onData" = JSVal.vUndefined
     ∧ getProp c1 "agent" = JSVal.vUndefined
     ∧ c1 ≠ c0
     ∧ getProp ((fetchConfigStep httpConfig (.str "http://example.com/") (some c1)).1)
         "method" = JSVal.vstr "PUT") := by
  decide

/-- Witness for C5 from the initial state, with a chunk and a completion
event arriving after the teardown. -/
theorem timeout_teardown_witness :
    initState.settled = none ∧ initState.destroyed = false ∧
    ((step JSVal.vnull JSVal.vnull initState .timeoutEv).settled =
        some (.rejected ⟨"Request timed out", 408, "Request Timeout"⟩) ∧
     (step JSVal.vnull JSVal.vnull initState .timeoutEv).destroyed = true ∧
     runEvents JSVal.vnull JSVal.vnull (step JSVal.vnull JSVal.vnull initState .timeoutEv)
        [.chunk "x", .endEv 200 "OK"] =
       step JSVal.vnull JSVal.vnull initState .timeoutEv) :=
  ⟨rfl, rfl,
   timeout_teardown JSVal.vnull JSVal.vnull initState [.chunk "x", .endEv 200 "OK"] rfl rfl⟩

end Fetch
